import Mathlib

/-!
Shallow embedding of the llamafile Token Editor (token_editor.c) and the
Recursive Context Environment (recursive_llm.c), restricted to the parts
the verified claims exercise.

Modelling conventions:
* C `int32_t` token ids, positions and sequence ids become `Int`; sizes
  (`size_t`) become `Nat`.
* The token and token-info arrays are modelled by their defined region
  `[0, n_tokens)` as Lean lists; `capacity` and the uninitialized slack
  beyond `n_tokens` are not observable through the modelled operations
  and are elided.  `te_ensure_capacity` therefore always succeeds; heap
  allocation failures are not modelled.
* The external llama adapter (vocabulary flags, batch decode) is an
  oracle passed as a `Model` parameter.  The float `logit`/`prob`
  fields of `te_token_info_t` are never read by any modelled operation
  (they only travel with their record under shifts), so they are elided
  from the record.
* The range clamp in te_delete_tokens / te_replace_tokens is the C
  test `(size_t)end > ctx->n_tokens`: the unsigned cast sends a
  negative `end` above `n_tokens`, so both a negative and an over-large
  `end` are clamped UP to `n_tokens`.  The clamped `end` is therefore
  always in `[0, n_tokens]` and `te_delete_tokens` is faithful for
  every argument.  `te_replace_tokens` is faithful whenever the clamped
  `start` does not exceed the clamped `end` (equivalently the range is
  not inverted after clamping); in the inverted case the C code copies
  the replacement beyond the defined region or splices a truncated
  overlap of uninitialized slack, which the abstract state cannot
  express, and the model performs the plain list splice.  The recording
  behaviour of both (which is all the history claims look at) is
  faithful for every argument: a REPLACE/DELETE is recorded exactly
  when the clamped range is nonempty, with the prior tokens of that
  range.
-/

/-- External llama adapter oracle: vocabulary flag readout
(`te_get_token_flags`) and batch-decode success (`llama_decode` result
being zero for a full-buffer batch). -/
structure Model where
  flagsOf : Int → Nat
  decode : List Int → Bool

/-- te_error_t. -/
inductive TeError where
  | OK
  | INVALID_CONTEXT
  | INVALID_POSITION
  | INVALID_TOKEN
  | BUFFER_TOO_SMALL
  | KV_CACHE_FULL
  | SEQUENCE_NOT_FOUND
  | ALLOCATION_FAILED
  | READONLY
deriving DecidableEq, Repr

/-- TE_FLAG_USER_DATA (1 << 4). -/
def TE_FLAG_USER_DATA : Nat := 16

/-- te_token_info_t, minus the float `logit`/`prob` fields (never read by
any modelled operation; see the file header). -/
structure TokenInfo where
  id : Int
  pos : Int
  seq_id : Int
  has_logit : Bool
  flags : Nat
deriving DecidableEq, Repr

/-- te_range_t.  The C field `end` is called `stop` here (`end` is a
keyword). -/
structure TeRange where
  start : Int
  stop : Int
  seq_id : Int
deriving DecidableEq, Repr

/-- te_op_type_t. -/
inductive TeOpType where
  | INSERT
  | DELETE
  | REPLACE
  | MOVE
  | COPY
  | SWAP
deriving DecidableEq, Repr

/-- te_edit_op_t.  The C struct stores the payload as a pointer plus a
count; allocations always succeed in the model, so the payload is the
single list `tokens`.  The intrusive `next` pointer becomes list
structure in `TeState.history` / `TeState.redo_stack`. -/
structure EditOp where
  type : TeOpType
  source : TeRange
  dest : TeRange
  tokens : List Int
deriving DecidableEq, Repr

/-- te_context_t.  `history` is in chronological order (last element =
`history_tail`); `redo_stack` has its top at the head, as in C.  The
`llama_ctx`/`llama_model` handles, capacity, sequence registry and
callbacks are elided (callbacks have no effect on the modelled state;
the sequence registry is untouched by the claims). -/
structure TeState where
  tokens : List Int
  token_info : List TokenInfo
  history : List EditOp
  redo_stack : List EditOp
  history_limit : Nat
  readonly : Bool
  suppress_history : Bool
  kv_cache_dirty : Bool
  logits_valid : Bool
deriving DecidableEq, Repr

/-- The state `te_init` produces (TE_HISTORY_DEFAULT_LIMIT = 100). -/
def te_init_state : TeState :=
  { tokens := []
    token_info := []
    history := []
    redo_stack := []
    history_limit := 100
    readonly := false
    suppress_history := false
    kv_cache_dirty := false
    logits_valid := false }

/-- The trimming loop at the end of te_record_edit: while the history
holds more than `limit` entries (and the limit is positive), drop the
oldest. -/
def trimHistory (limit : Nat) : List EditOp → List EditOp
  | [] => []
  | op :: rest =>
    if 0 < limit ∧ limit < (op :: rest).length then trimHistory limit rest
    else op :: rest

/-- te_record_edit: when recording is not suppressed, append the op to
the history tail, clear the redo stack, and trim to the limit. -/
def te_record_edit (s : TeState) (type : TeOpType) (source dest : TeRange)
    (ts : List Int) : TeState :=
  if s.suppress_history then s
  else
    { s with
      history := trimHistory s.history_limit (s.history ++ [⟨type, source, dest, ts⟩])
      redo_stack := [] }

/-- te_set_token.  The NULL-handle branch is outside the model; the
`on_token_change` callback has no effect on the modelled state. -/
def te_set_token (m : Model) (s : TeState) (pos seq_id tok : Int) :
    TeError × TeState :=
  if s.readonly then (.READONLY, s)
  else if pos < 0 ∨ (s.tokens.length : Int) ≤ pos then (.INVALID_POSITION, s)
  else
    let p := pos.toNat
    let old := s.tokens.getD p 0
    let r : TeRange := ⟨pos, pos + 1, seq_id⟩
    let s1 := te_record_edit s .REPLACE r r [old]
    let oldInfo := s1.token_info.getD p ⟨0, 0, 0, false, 0⟩
    (.OK,
      { s1 with
        tokens := s1.tokens.set p tok
        token_info := s1.token_info.set p
          { oldInfo with id := tok, flags := m.flagsOf tok, has_logit := false }
        kv_cache_dirty := true
        logits_valid := false })

/-- The per-entry metadata te_insert_tokens / te_replace_tokens write
for freshly copied tokens (id, pos, seq, USER_DATA-tagged flags, no
logit). -/
def freshInfos (m : Model) (base : Int) (seq_id : Int) (ts : List Int) :
    List TokenInfo :=
  ts.enum.map fun p =>
    ⟨p.2, base + (p.1 : Int), if 0 ≤ seq_id then seq_id else 0, false,
      m.flagsOf p.2 ||| TE_FLAG_USER_DATA⟩

/-- te_insert_tokens.  An empty payload is a no-op success (checked
after the position bound, as in C); the tail shift plus copy becomes a
list splice. -/
def te_insert_tokens (m : Model) (s : TeState) (pos seq_id : Int)
    (ts : List Int) : TeError × TeState :=
  if s.readonly then (.READONLY, s)
  else if pos < 0 ∨ (s.tokens.length : Int) < pos then (.INVALID_POSITION, s)
  else if ts = [] then (.OK, s)
  else
    let p := pos.toNat
    let s1 :=
      { s with
        tokens := s.tokens.take p ++ ts ++ s.tokens.drop p
        token_info := s.token_info.take p ++ freshInfos m pos seq_id ts
          ++ s.token_info.drop p
        kv_cache_dirty := true
        logits_valid := false }
    let r : TeRange := ⟨pos, pos + (ts.length : Int), seq_id⟩
    (.OK, te_record_edit s1 .INSERT r r ts)

/-- te_delete_tokens: clamp `start` below by 0 and `end` via the C
test `(size_t)end > n_tokens` — a negative `end` wraps under the
unsigned cast and is clamped UP to `n_tokens`, as is an over-large
one; an empty clamped range is a no-op success; the removed tokens are
recorded before the tail is shifted left. -/
def te_delete_tokens (m : Model) (s : TeState) (r : TeRange) :
    TeError × TeState :=
  if s.readonly then (.READONLY, s)
  else
    let n : Int := s.tokens.length
    let start := max r.start 0
    let stop := if r.stop < 0 ∨ n < r.stop then n else r.stop
    if start ≥ stop then (.OK, s)
    else
      let a := start.toNat
      let b := stop.toNat
      let saved := (s.tokens.drop a).take (b - a)
      let s1 := te_record_edit s .DELETE ⟨start, stop, r.seq_id⟩
        ⟨start, stop, r.seq_id⟩ saved
      (.OK,
        { s1 with
          tokens := s1.tokens.take a ++ s1.tokens.drop b
          token_info := s1.token_info.take a ++ s1.token_info.drop b
          kv_cache_dirty := true
          logits_valid := false })

/-- te_replace_tokens: clamp `start` below by 0 and `end` via the C
test `(size_t)end > n_tokens` (a negative `end` wraps under the
unsigned cast and is clamped UP to `n_tokens`); save the prior tokens
of the clamped range; splice in the replacement; record a single
REPLACE (only when the saved range was nonempty, i.e. when the C
code's `saved` buffer is non-NULL).  See the file header for the
fidelity domain of the splice. -/
def te_replace_tokens (m : Model) (s : TeState) (r : TeRange)
    (ts : List Int) : TeError × TeState :=
  if s.readonly then (.READONLY, s)
  else
    let n : Int := s.tokens.length
    let start := max r.start 0
    let stop := if r.stop < 0 ∨ n < r.stop then n else r.stop
    let old_count : Nat := if start < stop then (stop - start).toNat else 0
    let a := start.toNat
    let b := stop.toNat
    let saved := (s.tokens.drop a).take old_count
    let s1 :=
      { s with
        tokens := s.tokens.take a ++ ts ++ s.tokens.drop b
        token_info := s.token_info.take a ++ freshInfos m start r.seq_id ts
          ++ s.token_info.drop b
        kv_cache_dirty := true
        logits_valid := false }
    let s2 :=
      if 0 < old_count then
        te_record_edit s1 .REPLACE ⟨start, stop, r.seq_id⟩
          ⟨start, stop, r.seq_id⟩ saved
      else s1
    (.OK, s2)

/-- te_clear: record a DELETE of the whole buffer (when nonempty) and
reset `n_tokens` to zero. -/
def te_clear (m : Model) (s : TeState) (seq_id : Int) : TeError × TeState :=
  if s.readonly then (.READONLY, s)
  else
    let s1 :=
      if 0 < s.tokens.length then
        te_record_edit s .DELETE ⟨0, (s.tokens.length : Int), seq_id⟩
          ⟨0, (s.tokens.length : Int), seq_id⟩ s.tokens
      else s
    (.OK,
      { s1 with
        tokens := []
        token_info := []
        kv_cache_dirty := true
        logits_valid := false })

/-- te_undo: pop the last history entry, replay its inverse with
recording suppressed, push it onto the redo stack, and mark the cache
dirty.  An empty history is a success no-op. -/
def te_undo (m : Model) (s : TeState) : TeError × TeState :=
  match s.history.getLast? with
  | none => (.OK, s)
  | some op =>
    let s0 := { s with history := s.history.dropLast }
    let sup := s0.suppress_history
    let s1 := { s0 with suppress_history := true }
    let s2 :=
      match op.type with
      | .INSERT => (te_delete_tokens m s1 op.source).2
      | .DELETE =>
        (te_insert_tokens m s1 op.source.start op.source.seq_id op.tokens).2
      | .REPLACE => (te_replace_tokens m s1 op.dest op.tokens).2
      | _ => s1
    let s3 := { s2 with suppress_history := sup }
    (.OK,
      { s3 with
        redo_stack := op :: s3.redo_stack
        kv_cache_dirty := true
        logits_valid := false })

/-- te_redo: pop the top of the redo stack, replay it with recording
suppressed, append it back to the history tail (note: the REPLACE case
replays the payload that was saved for undo).  An empty redo stack is a
success no-op. -/
def te_redo (m : Model) (s : TeState) : TeError × TeState :=
  match s.redo_stack with
  | [] => (.OK, s)
  | op :: rest =>
    let s0 := { s with redo_stack := rest }
    let sup := s0.suppress_history
    let s1 := { s0 with suppress_history := true }
    let s2 :=
      match op.type with
      | .INSERT =>
        (te_insert_tokens m s1 op.source.start op.source.seq_id op.tokens).2
      | .DELETE => (te_delete_tokens m s1 op.source).2
      | .REPLACE => (te_replace_tokens m s1 op.source op.tokens).2
      | _ => s1
    let s3 := { s2 with suppress_history := sup }
    (.OK,
      { s3 with
        history := s3.history ++ [op]
        kv_cache_dirty := true
        logits_valid := false })

/-- te_get_history_count: walk the history list. -/
def te_get_history_count (s : TeState) : Nat := s.history.length

/-- te_sync_kv_cache: a clean cache is a no-op success; otherwise clear
the adapter cache and batch-decode all tokens (logits requested only at
the final position).  Decode failure surfaces as KV_CACHE_FULL with the
dirty flag still set; note that with an empty buffer no decode runs and
`logits_valid` is left unchanged. -/
def te_sync_kv_cache (m : Model) (s : TeState) : TeError × TeState :=
  if s.kv_cache_dirty = false then (.OK, s)
  else if 0 < s.tokens.length then
    if m.decode s.tokens then
      (.OK, { s with logits_valid := true, kv_cache_dirty := false })
    else (.KV_CACHE_FULL, s)
  else (.OK, { s with kv_cache_dirty := false })

/-- Little-endian byte split of a `uint32_t` value, as `memcpy` of the
4-byte value lays it out on the little-endian targets the code builds
for (x86-64 / aarch64). -/
def u32le (x : Nat) : List Nat :=
  [x % 256, x / 256 % 256, x / 65536 % 256, x / 16777216 % 256]

/-- Little-endian byte split of an `int32_t` token id (two's
complement). -/
def i32le (t : Int) : List Nat := u32le (t.emod 4294967296).toNat

/-- te_export_binary: needed size is `4 + 4 * n_tokens`; a short buffer
yields BUFFER_TOO_SMALL with `*buf_size` set to the needed size; else
the little-endian count word followed by the little-endian token ids is
written and `*buf_size` reports the bytes written.  Result:
(error, bytes written, `*buf_size` on return). -/
def te_export_binary (s : TeState) (buf_size : Nat) :
    TeError × List Nat × Nat :=
  let needed := 4 + 4 * s.tokens.length
  if buf_size < needed then (.BUFFER_TOO_SMALL, [], needed)
  else (.OK, u32le s.tokens.length ++ (s.tokens.map i32le).flatten, needed)

/-- Read the little-endian `uint32_t` at offset `off`. -/
def readU32le (bytes : List Nat) (off : Nat) : Nat :=
  bytes.getD off 0 + 256 * bytes.getD (off + 1) 0
    + 65536 * bytes.getD (off + 2) 0 + 16777216 * bytes.getD (off + 3) 0

/-- Reinterpret a `uint32_t` bit pattern as the `int32_t` token id. -/
def i32ofBits (v : Nat) : Int :=
  if v < 2147483648 then (v : Int) else (v : Int) - 4294967296

/-- te_import_binary: read the count word, check the size, clear the
editor (which records the deletion), then load the tokens and rebuild
the metadata with vocabulary flags (no USER_DATA tag). -/
def te_import_binary (m : Model) (s : TeState) (seq_id : Int)
    (bytes : List Nat) : TeError × TeState :=
  if bytes.length < 4 then (.BUFFER_TOO_SMALL, s)
  else
    let count := readU32le bytes 0
    if bytes.length < 4 + count * 4 then (.BUFFER_TOO_SMALL, s)
    else
      let s1 := (te_clear m s seq_id).2
      let toks := (List.range count).map fun i => i32ofBits (readU32le bytes (4 + 4 * i))
      let infos := toks.enum.map fun p =>
        ⟨p.2, (p.1 : Int), if 0 ≤ seq_id then seq_id else 0, false, m.flagsOf p.2⟩
      (.OK,
        { s1 with
          tokens := toks
          token_info := infos
          kv_cache_dirty := true
          logits_valid := false })

/-- A trivial concrete adapter oracle for witnesses and
counterexamples: every token has empty flags in the vocabulary, and
every decode succeeds. -/
def mZero : Model := ⟨fun _ => 0, fun _ => true⟩

/-!
Recursive Context Environment (recursive_llm.c).

The context tree is modelled against an explicit heap: `REnv.live` is
an association list from context id to context record, standing for
the allocated (not yet freed) `rllm_context_t` objects; `REnv.pool` is
`env->contexts`, a list of ids (pointers) in pool order.  Freeing a
context removes it from `live`; a pool entry whose id is absent from
`live` is a dangling pointer.  Parent and child pointers are stored as
ids.  The per-node mailbox, execution state and llama `cparams`
inheritance feed only external collaborators and are elided; the llama
context's serialized adapter state (`llama_copy_state_data` /
`llama_set_state_data`) is abstracted to a single `kvState : Nat`,
fresh contexts starting at 0.
-/

/-- rllm_error_t. -/
inductive RllmError where
  | OK
  | MAX_DEPTH
  | MAX_CONTEXTS
  | INVALID_CONTEXT
  | INVALID_PARENT
  | CONTEXT_BUSY
  | RECURSION_LIMIT
  | MEMORY
  | MODEL
  | DEADLOCK
  | TIMEOUT
deriving DecidableEq, Repr

/-- rllm_relation_t. -/
inductive RllmRelation where
  | ROOT
  | CHILD
  | FORK
  | PEER
deriving DecidableEq, Repr

/-- rllm_share_mode_t. -/
inductive RllmShareMode where
  | NONE
  | KV_READ
  | KV_COPY
  | TOKENS_READ
  | TOKENS_COPY
  | FULL
deriving DecidableEq, Repr

/-- rllm_ctx_config_t, keeping the fields the modelled operations
store or branch on (the completion parameters and inherit flags feed
only the generation driver). -/
structure RConfig where
  n_ctx : Nat
  n_batch : Nat
  n_threads : Nat
  share_mode : RllmShareMode
deriving DecidableEq, Repr

/-- rllm_context_t (tree vertex), with pointers replaced by ids. -/
structure RContext where
  id : Nat
  relation : RllmRelation
  depth : Nat
  parentId : Option Nat
  childIds : List Nat
  kvState : Nat
  editor : TeState
  config : RConfig
deriving DecidableEq, Repr

/-- rllm_env_t.  `created_events` records the ids passed to the
`on_context_create` callback, in call order, so that claims about
callbacks firing are observable. -/
structure REnv where
  max_depth : Nat
  max_contexts : Nat
  next_ctx_id : Nat
  pool : List Nat
  live : List (Nat × RContext)
  roots : List Nat
  created_events : List Nat
  peak_depth : Nat
  total_recursions : Nat
  total_contexts_created : Nat
deriving DecidableEq, Repr

/-- Dereference a context id against the heap of allocated contexts. -/
def lookupCtx (live : List (Nat × RContext)) (i : Nat) : Option RContext :=
  match live with
  | [] => none
  | (k, v) :: rest => if k = i then some v else lookupCtx rest i

/-- Overwrite the record stored for id `i` (in-place mutation of a
heap object). -/
def updateCtx (live : List (Nat × RContext)) (i : Nat) (c : RContext) :
    List (Nat × RContext) :=
  live.map fun kv => if kv.1 = i then (kv.1, c) else kv

/-- Remove the heap entry for id `i` (the object is freed). -/
def removeCtx (live : List (Nat × RContext)) (i : Nat) :
    List (Nat × RContext) :=
  match live with
  | [] => []
  | (k, v) :: rest => if k = i then rest else (k, v) :: removeCtx rest i

/-- The environment `rllm_init` produces for the given limits. -/
def rllm_init_env (max_depth max_contexts : Nat) : REnv :=
  { max_depth := max_depth
    max_contexts := max_contexts
    next_ctx_id := 0
    pool := []
    live := []
    roots := []
    created_events := []
    peak_depth := 0
    total_recursions := 0
    total_contexts_created := 0 }

/-- rllm_alloc_context: refuse when the pool is full, else allocate a
zeroed context with a fresh id, append it to the pool and bump the
creation counter.  Returns the new context and the updated
environment. -/
def rllm_alloc_context (env : REnv) : Option (RContext × REnv) :=
  if env.max_contexts ≤ env.pool.length then none
  else
    let cid := env.next_ctx_id
    let ctx : RContext :=
      { id := cid, relation := .ROOT, depth := 0, parentId := none,
        childIds := [], kvState := 0, editor := te_init_state,
        config := ⟨0, 0, 0, .NONE⟩ }
    some (ctx,
      { env with
        next_ctx_id := cid + 1
        pool := env.pool ++ [cid]
        live := env.live ++ [(cid, ctx)]
        total_contexts_created := env.total_contexts_created + 1 })

/-- rllm_create_root: allocate, mark as ROOT at depth 0 with the given
config, make fresh llama context and editor, push onto the roots list
(the C code caps the roots array at its initial 8 slots), and fire the
creation callback. -/
def rllm_create_root (env : REnv) (cfg : RConfig) : Option Nat × REnv :=
  match rllm_alloc_context env with
  | none => (none, env)
  | some (ctx0, env1) =>
    let ctx := { ctx0 with relation := .ROOT, config := cfg, depth := 0 }
    let env2 :=
      { env1 with
        live := updateCtx env1.live ctx.id ctx
        roots := if env1.roots.length < 8 then env1.roots ++ [ctx.id]
          else env1.roots
        created_events := env1.created_events ++ [ctx.id] }
    (some ctx.id, env2)

/-- rllm_add_child: append to the parent's child list, set the child's
parent pointer and its depth to `parent.depth + 1`. -/
def rllm_add_child (live : List (Nat × RContext)) (pid : Nat)
    (parent : RContext) (child : RContext) :
    RContext × List (Nat × RContext) :=
  let child' := { child with parentId := some pid, depth := parent.depth + 1 }
  let parent' := { parent with childIds := parent.childIds ++ [child.id] }
  (child', updateCtx (updateCtx live pid parent') child'.id child')

/-- rllm_spawn_child: fail (NULL, environment untouched) when the
parent is not live or `parent.depth + 1 >= max_depth`, or when the
pool is full.  Otherwise allocate a CHILD context, apply the sharing
mode (only KV_COPY / TOKENS_COPY / FULL copy anything), attach it
under the parent, update the peak depth and recursion counter, and
fire the creation callback.  Returns the child context as the C
function returns the child pointer. -/
def rllm_spawn_child (m : Model) (env : REnv) (pid : Nat) (cfg : RConfig) :
    Option RContext × REnv :=
  match lookupCtx env.live pid with
  | none => (none, env)
  | some parent =>
    if env.max_depth ≤ parent.depth + 1 then (none, env)
    else
      match rllm_alloc_context env with
      | none => (none, env)
      | some (ctx0, env1) =>
        let child0 := { ctx0 with relation := RllmRelation.CHILD, config := cfg }
        let child1 :=
          if cfg.share_mode = .KV_COPY ∨ cfg.share_mode = .FULL then
            { child0 with kvState := parent.kvState }
          else child0
        let child2 :=
          if (cfg.share_mode = .TOKENS_COPY ∨ cfg.share_mode = .FULL)
              ∧ 0 < parent.editor.tokens.length then
            { child1 with
              editor :=
                (te_insert_tokens m child1.editor 0 0 parent.editor.tokens).2 }
          else child1
        let (child3, live') := rllm_add_child (updateCtx env1.live child2.id child2)
          pid parent child2
        let env2 :=
          { env1 with
            live := live'
            peak_depth := max env1.peak_depth child3.depth
            total_recursions := env1.total_recursions + 1
            created_events := env1.created_events ++ [child3.id] }
        (some child3, env2)

/-- rllm_free_context_internal: post-order free of a subtree — free the
children recursively, then the node itself.  Fuel bounds the recursion
(the heap is finite; any fuel above the subtree depth gives the C
behaviour). -/
def freeSubtree : Nat → List (Nat × RContext) → Nat → List (Nat × RContext)
  | 0, live, _ => live
  | fuel + 1, live, cid =>
    match lookupCtx live cid with
    | none => live
    | some ctx =>
      removeCtx (ctx.childIds.foldl (fun lv c => freeSubtree fuel lv c) live) cid

/-- rllm_remove_child: drop the child from the parent's child list. -/
def rllm_remove_child (live : List (Nat × RContext)) (cid : Nat) (pid : Nat) :
    List (Nat × RContext) :=
  match lookupCtx live pid with
  | none => live
  | some parent =>
    updateCtx live pid { parent with childIds := parent.childIds.erase cid }

/-- rllm_destroy: fire the destroy callback, detach the node from its
parent and the roots list, remove the node itself — and only the node
itself — from the contexts pool (`rllm_remove_from_pool`), then free
the node and all its descendants. -/
def rllm_destroy (env : REnv) (cid : Nat) : RllmError × REnv :=
  match lookupCtx env.live cid with
  | none => (.INVALID_CONTEXT, env)
  | some ctx =>
    let live1 :=
      match ctx.parentId with
      | none => env.live
      | some pid => rllm_remove_child env.live cid pid
    let env1 :=
      { env with
        live := live1
        roots := env.roots.erase cid
        pool := env.pool.erase cid }
    (.OK, { env1 with live := freeSubtree (env1.live.length + 1) env1.live cid })

/-!
Mutator calls as data, for stating stack-accounting and history-limit
claims over arbitrary sequences of editor operations.
-/

/-- One call to a mutating editor operation, with its arguments. -/
inductive TeCall where
  | setTok (pos seq_id tok : Int)
  | insert (pos seq_id : Int) (ts : List Int)
  | delete (r : TeRange)
  | replace (r : TeRange) (ts : List Int)
  | clear (seq_id : Int)
deriving DecidableEq, Repr

/-- Dispatch a mutator call. -/
def applyTeCall (m : Model) (s : TeState) : TeCall → TeError × TeState
  | .setTok pos seq_id tok => te_set_token m s pos seq_id tok
  | .insert pos seq_id ts => te_insert_tokens m s pos seq_id ts
  | .delete r => te_delete_tokens m s r
  | .replace r ts => te_replace_tokens m s r ts
  | .clear seq_id => te_clear m s seq_id

/-- Whether the call reaches te_record_edit in state `s` (readout of
the guard structure of each mutator): set_token on a valid position;
insert with a nonempty payload at a valid position; delete and replace
with a nonempty clamped range; clear on a nonempty buffer — all subject
to the editor not being read-only. -/
def teRecords (s : TeState) : TeCall → Bool
  | .setTok pos _ _ =>
    !s.readonly && decide (0 ≤ pos) && decide (pos < (s.tokens.length : Int))
  | .insert pos _ ts =>
    !s.readonly && decide (0 ≤ pos) && decide (pos ≤ (s.tokens.length : Int))
      && !(ts.isEmpty)
  | .delete r =>
    !s.readonly && decide (max r.start 0
      < if r.stop < 0 ∨ (s.tokens.length : Int) < r.stop
        then (s.tokens.length : Int) else r.stop)
  | .replace r ts =>
    !s.readonly && decide (max r.start 0
      < if r.stop < 0 ∨ (s.tokens.length : Int) < r.stop
        then (s.tokens.length : Int) else r.stop)
  | .clear _ => !s.readonly && decide (0 < s.tokens.length)

/-- The EditOp the call hands to te_record_edit in state `s` (readout
of the record call sites of each mutator); meaningful when
`teRecords s c = true`. -/
def teRecOp (s : TeState) : TeCall → EditOp
  | .setTok pos seq_id _ =>
    ⟨.REPLACE, ⟨pos, pos + 1, seq_id⟩, ⟨pos, pos + 1, seq_id⟩,
      [s.tokens.getD pos.toNat 0]⟩
  | .insert pos seq_id ts =>
    ⟨.INSERT, ⟨pos, pos + (ts.length : Int), seq_id⟩,
      ⟨pos, pos + (ts.length : Int), seq_id⟩, ts⟩
  | .delete r =>
    let start := max r.start 0
    let stop := if r.stop < 0 ∨ (s.tokens.length : Int) < r.stop
      then (s.tokens.length : Int) else r.stop
    ⟨.DELETE, ⟨start, stop, r.seq_id⟩, ⟨start, stop, r.seq_id⟩,
      (s.tokens.drop start.toNat).take (stop.toNat - start.toNat)⟩
  | .replace r ts =>
    let start := max r.start 0
    let stop := if r.stop < 0 ∨ (s.tokens.length : Int) < r.stop
      then (s.tokens.length : Int) else r.stop
    let old_count : Nat := if start < stop then (stop - start).toNat else 0
    ⟨.REPLACE, ⟨start, stop, r.seq_id⟩, ⟨start, stop, r.seq_id⟩,
      (s.tokens.drop start.toNat).take old_count⟩
  | .clear seq_id =>
    ⟨.DELETE, ⟨0, (s.tokens.length : Int), seq_id⟩,
      ⟨0, (s.tokens.length : Int), seq_id⟩, s.tokens⟩

/-- Run a sequence of mutator calls. -/
def applyTeCalls (m : Model) (s : TeState) (cs : List TeCall) : TeState :=
  cs.foldl (fun t c => (applyTeCall m t c).2) s

/-- The EditOps actually recorded along a run (in order). -/
def recordedOps (m : Model) (s : TeState) : List TeCall → List EditOp
  | [] => []
  | c :: rest =>
    (if teRecords s c then [teRecOp s c] else [])
      ++ recordedOps m (applyTeCall m s c).2 rest

/-- A concrete environment holding one live root context (id 0) whose
editor holds the token 5 and whose adapter state blob is 7 — the shape
a parent has after a prompt was loaded and decoded. -/
def envC5 : REnv :=
  { max_depth := 32
    max_contexts := 64
    next_ctx_id := 1
    pool := [0]
    live := [(0,
      { id := 0, relation := .ROOT, depth := 0, parentId := none,
        childIds := [], kvState := 7,
        editor := (te_insert_tokens mZero te_init_state 0 0 [5]).2,
        config := ⟨2048, 512, 4, .NONE⟩ })]
    roots := [0]
    created_events := [0]
    peak_depth := 0
    total_recursions := 0
    total_contexts_created := 1 }

/-- The editor states reachable from a fresh editor by the operations
claim C2 quantifies over: insert_tokens, delete_tokens, replace_tokens,
set_token, clear, undo, redo and import_binary, at arbitrary
arguments. -/
inductive TeReachable (m : Model) : TeState → Prop where
  | init : TeReachable m te_init_state
  | set_token (s : TeState) (pos seq_id tok : Int) :
    TeReachable m s → TeReachable m (te_set_token m s pos seq_id tok).2
  | insert_tokens (s : TeState) (pos seq_id : Int) (ts : List Int) :
    TeReachable m s → TeReachable m (te_insert_tokens m s pos seq_id ts).2
  | delete_tokens (s : TeState) (r : TeRange) :
    TeReachable m s → TeReachable m (te_delete_tokens m s r).2
  | replace_tokens (s : TeState) (r : TeRange) (ts : List Int) :
    TeReachable m s → TeReachable m (te_replace_tokens m s r ts).2
  | clear (s : TeState) (seq_id : Int) :
    TeReachable m s → TeReachable m (te_clear m s seq_id).2
  | undo (s : TeState) :
    TeReachable m s → TeReachable m (te_undo m s).2
  | redo (s : TeState) :
    TeReachable m s → TeReachable m (te_redo m s).2
  | import_binary (s : TeState) (seq_id : Int) (bytes : List Nat) :
    TeReachable m s → TeReachable m (te_import_binary m s seq_id bytes).2

/-- Claim C1 (code_bug evaluation).  Failing input: starting from a
fresh editor, insert token 5 at position 0, then set_token(0, 7) —
buffer [7] — then undo — buffer [5] — then redo.  The claim (and spec
property 3) requires the post-op buffer [7] after redo, but te_redo
replays the Replace record with the payload that was saved for undo
(the OLD token 5), so the buffer stays [5]. -/
theorem c1_undo_redo_replace_oscillates :
    (te_set_token mZero (te_insert_tokens mZero te_init_state 0 0 [5]).2
      0 0 7).2.tokens = [7]
    ∧ (te_undo mZero
        (te_set_token mZero (te_insert_tokens mZero te_init_state 0 0 [5]).2
          0 0 7).2).2.tokens = [5]
    ∧ (te_redo mZero (te_undo mZero
        (te_set_token mZero (te_insert_tokens mZero te_init_state 0 0 [5]).2
          0 0 7).2).2).2.tokens = [5]
    ∧ ([5] : List Int) ≠ [7] := by
  refine ⟨by decide, by decide, by decide, by decide⟩

/-- Claim C4 (code_bug evaluation).  Failing input: an environment with
one root (id 0) and one child (id 1); rllm_destroy on the root returns
RLLM_OK, but the pool still holds the freed child's id (a dangling
entry) and n_contexts dropped by exactly one, not by 1 + descendants as
the claim (and the spec's pool invariant) requires. -/
theorem c4_destroy_leaves_descendants_in_pool :
    (rllm_spawn_child mZero
        (rllm_create_root (rllm_init_env 32 64) ⟨2048, 512, 4, .NONE⟩).2 0
        ⟨2048, 512, 4, .NONE⟩).2.pool = [0, 1]
    ∧ (rllm_destroy
        (rllm_spawn_child mZero
          (rllm_create_root (rllm_init_env 32 64) ⟨2048, 512, 4, .NONE⟩).2 0
          ⟨2048, 512, 4, .NONE⟩).2 0).1 = RllmError.OK
    ∧ (rllm_destroy
        (rllm_spawn_child mZero
          (rllm_create_root (rllm_init_env 32 64) ⟨2048, 512, 4, .NONE⟩).2 0
          ⟨2048, 512, 4, .NONE⟩).2 0).2.pool = [1]
    ∧ lookupCtx (rllm_destroy
        (rllm_spawn_child mZero
          (rllm_create_root (rllm_init_env 32 64) ⟨2048, 512, 4, .NONE⟩).2 0
          ⟨2048, 512, 4, .NONE⟩).2 0).2.live 1 = none
    ∧ ([1] : List Nat) ≠ [] := by
  refine ⟨by decide, by decide, by decide, by decide, by decide⟩

/-- Claim C10 (confirmed).  te_undo with an empty history and te_redo
with an empty redo stack both return TE_OK and leave the whole editor
state (buffer, history, redo stack included) unchanged. -/
theorem c10_undo_redo_empty_noop (m : Model) (s : TeState) :
    (s.history = [] → te_undo m s = (.OK, s))
    ∧ (s.redo_stack = [] → te_redo m s = (.OK, s)) := by
  constructor
  · intro h
    unfold te_undo
    rw [h]
    rfl
  · intro h
    unfold te_redo
    rw [h]

/-- Witness for C10 at a concrete editor. -/
theorem c10_witness :
    te_undo mZero te_init_state = (.OK, te_init_state)
    ∧ te_redo mZero te_init_state = (.OK, te_init_state) :=
  ⟨(c10_undo_redo_empty_noop mZero te_init_state).1 rfl,
    (c10_undo_redo_empty_noop mZero te_init_state).2 rfl⟩

/-- Claim C8 (confirmed).  te_export_binary on an editor with N tokens:
a buffer of at least 4 + 4·N bytes yields TE_OK, reports exactly
4 + 4·N in `*buf_size`, and writes the little-endian u32 count followed
by the N little-endian 4-byte token ids (an empty editor writes exactly
the bytes 00 00 00 00); a smaller buffer yields BUFFER_TOO_SMALL with
`*buf_size` set to the needed size. -/
theorem c8_export_binary_format (s : TeState) (buf_size : Nat) :
    (4 + 4 * s.tokens.length ≤ buf_size →
      te_export_binary s buf_size
        = (.OK, u32le s.tokens.length ++ (s.tokens.map i32le).flatten,
            4 + 4 * s.tokens.length)
      ∧ (s.tokens = [] → (te_export_binary s buf_size).2.1 = [0, 0, 0, 0]))
    ∧ (buf_size < 4 + 4 * s.tokens.length →
      te_export_binary s buf_size
        = (.BUFFER_TOO_SMALL, [], 4 + 4 * s.tokens.length)) := by
  constructor
  · intro h
    have hn : ¬ buf_size < 4 + 4 * s.tokens.length := by omega
    constructor
    · simp [te_export_binary, hn]
    · intro he
      have h4 : ¬ buf_size < 4 := by
        rw [he] at h
        simp at h
        omega
      simp [te_export_binary, he, h4, u32le]
  · intro h
    simp [te_export_binary, h]

/-- Witness for C8: the spec's scenario 7 (buffer [5], 8-byte output)
and scenario 6 (empty editor). -/
theorem c8_witness :
    te_export_binary (te_insert_tokens mZero te_init_state 0 0 [5]).2 8
      = (.OK, [1, 0, 0, 0, 5, 0, 0, 0], 8)
    ∧ (te_export_binary te_init_state 4).2.1 = [0, 0, 0, 0] := by
  constructor
  · exact ((c8_export_binary_format
      (te_insert_tokens mZero te_init_state 0 0 [5]).2 8).1
        (by decide)).1.trans (by decide)
  · exact (c8_export_binary_format te_init_state 4).1 (by decide) |>.2 (by decide)

/-- Counterexample for claim C6: a reachable dirty state with an empty
buffer (te_clear on a fresh editor) under an adapter whose decode
always succeeds.  te_sync_kv_cache returns TE_OK but leaves
logits_valid false, while the claim demands logits_valid true whenever
the cache was dirty and decode succeeds. -/
theorem c6_counterexample :
    (te_clear mZero te_init_state 0).2.kv_cache_dirty = true
    ∧ mZero.decode (te_clear mZero te_init_state 0).2.tokens = true
    ∧ (te_sync_kv_cache mZero (te_clear mZero te_init_state 0).2).1 = TeError.OK
    ∧ (te_sync_kv_cache mZero
        (te_clear mZero te_init_state 0).2).2.logits_valid = false := by
  refine ⟨by decide, by decide, by decide, by decide⟩

/-- Claim C6 (amended): a clean cache is a no-op success; a dirty cache
with a nonempty buffer and a successful decode yields TE_OK with the
dirty flag cleared and logits valid; a failed decode yields
KV_CACHE_FULL with the state (dirty flag included) untouched; a dirty
cache with an empty buffer runs no decode — TE_OK, dirty cleared,
logits_valid unchanged. -/
theorem c6_amended_sync_kv_cache (m : Model) (s : TeState) :
    (s.kv_cache_dirty = false → te_sync_kv_cache m s = (.OK, s))
    ∧ (s.kv_cache_dirty = true → s.tokens ≠ [] → m.decode s.tokens = true →
      te_sync_kv_cache m s
        = (.OK, { s with logits_valid := true, kv_cache_dirty := false }))
    ∧ (s.kv_cache_dirty = true → s.tokens ≠ [] → m.decode s.tokens = false →
      te_sync_kv_cache m s = (.KV_CACHE_FULL, s))
    ∧ (s.kv_cache_dirty = true → s.tokens = [] →
      te_sync_kv_cache m s = (.OK, { s with kv_cache_dirty := false })) := by
  refine ⟨?_, ?_, ?_, ?_⟩
  · intro h
    simp [te_sync_kv_cache, h]
  · intro h ht hd
    have hl : 0 < s.tokens.length := List.length_pos.mpr ht
    simp [te_sync_kv_cache, h, hl, hd]
  · intro h ht hd
    have hl : 0 < s.tokens.length := List.length_pos.mpr ht
    simp [te_sync_kv_cache, h, hl, hd]
  · intro h ht
    simp [te_sync_kv_cache, h, ht]

/-- Witness for C6 at a concrete dirty single-token editor with a
succeeding decode. -/
theorem c6_witness :
    (te_insert_tokens mZero te_init_state 0 0 [5]).2.kv_cache_dirty = true
    ∧ te_sync_kv_cache mZero (te_insert_tokens mZero te_init_state 0 0 [5]).2
      = (.OK, { (te_insert_tokens mZero te_init_state 0 0 [5]).2 with
          logits_valid := true, kv_cache_dirty := false }) :=
  ⟨by decide,
    (c6_amended_sync_kv_cache mZero
      (te_insert_tokens mZero te_init_state 0 0 [5]).2).2.1
      (by decide) (by decide) (by decide)⟩

/-- Counterexample for claim C5: spawning from a parent with adapter
state 7 and token buffer [5], share mode KV_READ leaves the child's
adapter state at its fresh value 0 while KV_COPY loads 7, and
TOKENS_READ leaves the child's buffer empty while TOKENS_COPY copies
[5] — the Read modes are not promoted to Copy and the resulting child
states differ. -/
theorem c5_counterexample :
    (rllm_spawn_child mZero envC5 0 ⟨0, 0, 0, .KV_READ⟩).1.map RContext.kvState
      = some 0
    ∧ (rllm_spawn_child mZero envC5 0 ⟨0, 0, 0, .KV_COPY⟩).1.map RContext.kvState
      = some 7
    ∧ (rllm_spawn_child mZero envC5 0
        ⟨0, 0, 0, .TOKENS_READ⟩).1.map (fun c => c.editor.tokens) = some []
    ∧ (rllm_spawn_child mZero envC5 0
        ⟨0, 0, 0, .TOKENS_COPY⟩).1.map (fun c => c.editor.tokens) = some [5]
    ∧ (0 : Nat) ≠ 7 ∧ ([] : List Int) ≠ [5] := by
  decide

/-- Claim C5 (amended): rllm_spawn_child handles only KV_COPY,
TOKENS_COPY and FULL; the Read share modes are not promoted to Copy —
a child spawned with KV_READ or TOKENS_READ copies nothing from its
parent and gets the same fresh adapter state and empty editor that
Share = NONE produces. -/
theorem c5_amended_read_modes_copy_nothing (m : Model) (env : REnv)
    (pid : Nat) (cfg : RConfig) (c : RContext) (env' : REnv)
    (hmode : cfg.share_mode = .KV_READ ∨ cfg.share_mode = .TOKENS_READ
      ∨ cfg.share_mode = .NONE)
    (h : rllm_spawn_child m env pid cfg = (some c, env')) :
    c.kvState = 0 ∧ c.editor = te_init_state := by
  unfold rllm_spawn_child at h
  cases hl : lookupCtx env.live pid with
  | none => simp only [hl] at h; exact absurd h (by simp)
  | some parent =>
    simp only [hl] at h
    by_cases hd : env.max_depth ≤ parent.depth + 1
    · simp only [if_pos hd] at h
      exact absurd h (by simp)
    · simp only [if_neg hd] at h
      unfold rllm_alloc_context at h
      by_cases hc : env.max_contexts ≤ env.pool.length
      · simp only [if_pos hc] at h
        exact absurd h (by simp)
      · simp only [if_neg hc] at h
        have hkv : ¬ (cfg.share_mode = .KV_COPY ∨ cfg.share_mode = .FULL) := by
          rcases hmode with hm | hm | hm <;> rw [hm] <;> simp
        have htok : ¬ ((cfg.share_mode = .TOKENS_COPY ∨ cfg.share_mode = .FULL)
            ∧ 0 < parent.editor.tokens.length) := by
          rcases hmode with hm | hm | hm <;> rw [hm] <;> simp
        simp only [rllm_add_child, if_neg hkv, if_neg htok,
          Prod.mk.injEq, Option.some.injEq] at h
        obtain ⟨hcq, _⟩ := h
        constructor
        · rw [← hcq]
        · rw [← hcq]

/-- Witness for C5: spawning from the concrete parent with TOKENS_READ
yields a child with fresh adapter state and a fresh editor. -/
theorem c5_witness :
    (rllm_spawn_child mZero envC5 0 ⟨0, 0, 0, .TOKENS_READ⟩).1.map
        RContext.kvState = some 0
    ∧ (rllm_spawn_child mZero envC5 0 ⟨0, 0, 0, .TOKENS_READ⟩).1.map
        (fun c => c.editor) = some te_init_state := by
  cases hs : rllm_spawn_child mZero envC5 0 ⟨0, 0, 0, .TOKENS_READ⟩ with
  | mk oc env' =>
    cases oc with
    | none =>
      have h2 : (rllm_spawn_child mZero envC5 0
          ⟨0, 0, 0, .TOKENS_READ⟩).1.isSome = true := by decide
      rw [hs] at h2
      simp at h2
    | some c =>
      have hc := c5_amended_read_modes_copy_nothing mZero envC5 0
        ⟨0, 0, 0, .TOKENS_READ⟩ c env' (Or.inr (Or.inl rfl)) hs
      simp [hc.1, hc.2]

/-- Claim C7 (confirmed).  rllm_spawn_child fails — returning NULL with
the whole environment (pool and callback event list included)
untouched — whenever `parent.depth + 1 >= max_depth`, and every
successfully spawned child has depth `parent.depth + 1 < max_depth`. -/
theorem c7_depth_bound :
    (∀ (m : Model) (env : REnv) (pid : Nat) (cfg : RConfig) (parent : RContext),
      lookupCtx env.live pid = some parent →
      env.max_depth ≤ parent.depth + 1 →
      rllm_spawn_child m env pid cfg = (none, env))
    ∧ (∀ (m : Model) (env : REnv) (pid : Nat) (cfg : RConfig) (c : RContext)
        (env' : REnv),
      rllm_spawn_child m env pid cfg = (some c, env') →
      c.depth < env.max_depth) := by
  constructor
  · intro m env pid cfg parent hp hd
    unfold rllm_spawn_child
    simp only [hp, if_pos hd]
  · intro m env pid cfg c env' h
    unfold rllm_spawn_child at h
    cases hl : lookupCtx env.live pid with
    | none => simp only [hl] at h; exact absurd h (by simp)
    | some parent =>
      simp only [hl] at h
      by_cases hd : env.max_depth ≤ parent.depth + 1
      · simp only [if_pos hd] at h
        exact absurd h (by simp)
      · simp only [if_neg hd] at h
        unfold rllm_alloc_context at h
        by_cases hc : env.max_contexts ≤ env.pool.length
        · simp only [if_pos hc] at h
          exact absurd h (by simp)
        · simp only [if_neg hc] at h
          simp only [rllm_add_child, Prod.mk.injEq, Option.some.injEq] at h
          obtain ⟨hcq, _⟩ := h
          have : c.depth = parent.depth + 1 := by rw [← hcq]
          omega

/-- Witness for C7: at depth limit 1, spawning from the root fails and
leaves the environment untouched; with limit 32 the spawned child's
depth 1 is below the bound. -/
theorem c7_witness :
    rllm_spawn_child mZero
      (rllm_create_root (rllm_init_env 1 64) ⟨2048, 512, 4, .NONE⟩).2 0
      ⟨2048, 512, 4, .NONE⟩
      = (none, (rllm_create_root (rllm_init_env 1 64) ⟨2048, 512, 4, .NONE⟩).2)
    ∧ (rllm_spawn_child mZero
        (rllm_create_root (rllm_init_env 32 64) ⟨2048, 512, 4, .NONE⟩).2 0
        ⟨2048, 512, 4, .NONE⟩).1.map RContext.depth = some 1 := by
  constructor
  · exact c7_depth_bound.1 mZero
      (rllm_create_root (rllm_init_env 1 64) ⟨2048, 512, 4, .NONE⟩).2 0
      ⟨2048, 512, 4, .NONE⟩
      { id := 0, relation := .ROOT, depth := 0, parentId := none,
        childIds := [], kvState := 0, editor := te_init_state,
        config := ⟨2048, 512, 4, .NONE⟩ }
      (by decide) (by decide)
  · decide


/-!
Helper lemmas for the metadata invariant: te_record_edit only edits the
history bookkeeping, never the token buffer or the metadata array.
-/

theorem te_record_edit_tokens (s : TeState) (ty : TeOpType) (a b : TeRange)
    (ts : List Int) : (te_record_edit s ty a b ts).tokens = s.tokens := by
  unfold te_record_edit
  split <;> rfl

theorem te_record_edit_token_info (s : TeState) (ty : TeOpType)
    (a b : TeRange) (ts : List Int) :
    (te_record_edit s ty a b ts).token_info = s.token_info := by
  unfold te_record_edit
  split <;> rfl

theorem freshInfos_map_id (m : Model) (base seq_id : Int) (ts : List Int) :
    (freshInfos m base seq_id ts).map TokenInfo.id = ts := by
  unfold freshInfos
  rw [List.map_map]
  exact List.enum_map_snd ts

theorem infoIds_set_token (m : Model) (s : TeState) (pos seq_id tok : Int)
    (h : s.token_info.map TokenInfo.id = s.tokens) :
    (te_set_token m s pos seq_id tok).2.token_info.map TokenInfo.id
      = (te_set_token m s pos seq_id tok).2.tokens := by
  unfold te_set_token
  split
  · exact h
  · split
    · exact h
    · simp only [te_record_edit_tokens, te_record_edit_token_info,
        List.map_set, h]

theorem infoIds_insert_tokens (m : Model) (s : TeState) (pos seq_id : Int)
    (ts : List Int) (h : s.token_info.map TokenInfo.id = s.tokens) :
    (te_insert_tokens m s pos seq_id ts).2.token_info.map TokenInfo.id
      = (te_insert_tokens m s pos seq_id ts).2.tokens := by
  unfold te_insert_tokens
  split
  · exact h
  · split
    · exact h
    · split
      · exact h
      · simp only [te_record_edit_tokens, te_record_edit_token_info,
          List.map_append, List.map_take, List.map_drop, freshInfos_map_id, h]

theorem infoIds_delete_tokens (m : Model) (s : TeState) (r : TeRange)
    (h : s.token_info.map TokenInfo.id = s.tokens) :
    (te_delete_tokens m s r).2.token_info.map TokenInfo.id
      = (te_delete_tokens m s r).2.tokens := by
  unfold te_delete_tokens
  split
  · exact h
  · dsimp only
    split <;> split <;>
      first
        | exact h
        | simp only [te_record_edit_tokens, te_record_edit_token_info,
            List.map_append, List.map_take, List.map_drop, h]

theorem infoIds_replace_tokens (m : Model) (s : TeState) (r : TeRange)
    (ts : List Int) (h : s.token_info.map TokenInfo.id = s.tokens) :
    (te_replace_tokens m s r ts).2.token_info.map TokenInfo.id
      = (te_replace_tokens m s r ts).2.tokens := by
  unfold te_replace_tokens
  split
  · exact h
  · dsimp only
    split <;> split <;> split <;>
      simp only [te_record_edit_tokens, te_record_edit_token_info,
        List.map_append, List.map_take, List.map_drop, freshInfos_map_id, h]

theorem infoIds_clear (m : Model) (s : TeState) (seq_id : Int)
    (h : s.token_info.map TokenInfo.id = s.tokens) :
    (te_clear m s seq_id).2.token_info.map TokenInfo.id
      = (te_clear m s seq_id).2.tokens := by
  unfold te_clear
  split
  · exact h
  · rfl

theorem infoIds_import_binary (m : Model) (s : TeState) (seq_id : Int)
    (bytes : List Nat) (h : s.token_info.map TokenInfo.id = s.tokens) :
    (te_import_binary m s seq_id bytes).2.token_info.map TokenInfo.id
      = (te_import_binary m s seq_id bytes).2.tokens := by
  unfold te_import_binary
  split
  · exact h
  · dsimp only
    split
    · exact h
    · simp only [List.map_map]
      exact List.enum_map_snd _

theorem infoIds_undo (m : Model) (s : TeState)
    (h : s.token_info.map TokenInfo.id = s.tokens) :
    (te_undo m s).2.token_info.map TokenInfo.id = (te_undo m s).2.tokens := by
  unfold te_undo
  cases hl : s.history.getLast? with
  | none => exact h
  | some op =>
    rcases op with ⟨ty, src, dst, ts⟩
    cases ty with
    | INSERT => exact infoIds_delete_tokens m _ _ h
    | DELETE => exact infoIds_insert_tokens m _ _ _ _ h
    | REPLACE => exact infoIds_replace_tokens m _ _ _ h
    | MOVE => exact h
    | COPY => exact h
    | SWAP => exact h

theorem infoIds_redo (m : Model) (s : TeState)
    (h : s.token_info.map TokenInfo.id = s.tokens) :
    (te_redo m s).2.token_info.map TokenInfo.id = (te_redo m s).2.tokens := by
  unfold te_redo
  cases hr : s.redo_stack with
  | nil => exact h
  | cons op rest =>
    rcases op with ⟨ty, src, dst, ts⟩
    cases ty with
    | INSERT => exact infoIds_insert_tokens m _ _ _ _ h
    | DELETE => exact infoIds_delete_tokens m _ _ h
    | REPLACE => exact infoIds_replace_tokens m _ _ _ h
    | MOVE => exact h
    | COPY => exact h
    | SWAP => exact h

/-- Counterexample for claim C2: after two single-token inserts at
position 0 (a reachable state with two tokens), the stored metadata at
index 1 still carries position 0 — the shifted tail is moved without
restamping `pos`, refuting `token_info[i].pos == i`. -/
theorem c2_counterexample :
    TeReachable mZero
      (te_insert_tokens mZero
        (te_insert_tokens mZero te_init_state 0 0 [5]).2 0 0 [6]).2
    ∧ (te_insert_tokens mZero
        (te_insert_tokens mZero te_init_state 0 0 [5]).2 0 0 [6]).2.tokens.length
      = 2
    ∧ (te_insert_tokens mZero
        (te_insert_tokens mZero te_init_state 0 0 [5]).2
          0 0 [6]).2.token_info.map TokenInfo.pos = [0, 0]
    ∧ (1 : Int) ≠ 0 :=
  ⟨TeReachable.insert_tokens _ 0 0 [6]
      (TeReachable.insert_tokens _ 0 0 [5] TeReachable.init),
    by decide, by decide, by decide⟩

/-- Claim C2 (amended): for every editor state reachable by any
sequence of the listed operations and every index `i < n_tokens`,
`token_info[i].id == tokens[i]` holds; the stored `token_info[i].pos`
is NOT kept equal to `i` (shifting edits move the metadata without
restamping it — see the counterexample; te_get_token_info recomputes
`pos` at read time). -/
theorem c2_amended_info_id_matches_tokens (m : Model) (s : TeState)
    (h : TeReachable m s) :
    s.token_info.map TokenInfo.id = s.tokens := by
  induction h with
  | init => rfl
  | set_token s pos seq_id tok _ ih => exact infoIds_set_token m s pos seq_id tok ih
  | insert_tokens s pos seq_id ts _ ih =>
    exact infoIds_insert_tokens m s pos seq_id ts ih
  | delete_tokens s r _ ih => exact infoIds_delete_tokens m s r ih
  | replace_tokens s r ts _ ih => exact infoIds_replace_tokens m s r ts ih
  | clear s seq_id _ ih => exact infoIds_clear m s seq_id ih
  | undo s _ ih => exact infoIds_undo m s ih
  | redo s _ ih => exact infoIds_redo m s ih
  | import_binary s seq_id bytes _ ih =>
    exact infoIds_import_binary m s seq_id bytes ih

/-- Witness for C2 at a concrete reachable two-token state. -/
theorem c2_witness :
    (te_insert_tokens mZero
      (te_insert_tokens mZero te_init_state 0 0 [5]).2
        0 0 [6]).2.token_info.map TokenInfo.id
      = (te_insert_tokens mZero
          (te_insert_tokens mZero te_init_state 0 0 [5]).2 0 0 [6]).2.tokens :=
  c2_amended_info_id_matches_tokens mZero _
    (TeReachable.insert_tokens _ 0 0 [6]
      (TeReachable.insert_tokens _ 0 0 [5] TeReachable.init))

/-!
Helper lemmas for undo/redo stack accounting and the history limit.
-/

theorem te_record_edit_history_limit (s : TeState) (ty : TeOpType)
    (a b : TeRange) (ts : List Int) :
    (te_record_edit s ty a b ts).history_limit = s.history_limit := by
  unfold te_record_edit
  split <;> rfl

theorem te_record_edit_suppress (s : TeState) (ty : TeOpType)
    (a b : TeRange) (ts : List Int) :
    (te_record_edit s ty a b ts).suppress_history = s.suppress_history := by
  unfold te_record_edit
  split <;> rfl

theorem te_record_edit_readonly (s : TeState) (ty : TeOpType)
    (a b : TeRange) (ts : List Int) :
    (te_record_edit s ty a b ts).readonly = s.readonly := by
  unfold te_record_edit
  split <;> rfl

/-- The trimming loop drops exactly the oldest `length - limit`
entries. -/
theorem trimHistory_eq_drop (L : Nat) (hL : 0 < L) :
    ∀ l : List EditOp, trimHistory L l = l.drop (l.length - L) := by
  intro l
  induction l with
  | nil => simp [trimHistory]
  | cons op rest ih =>
    unfold trimHistory
    by_cases hlen : L < (op :: rest).length
    · rw [if_pos ⟨hL, hlen⟩, ih]
      have h1 : (op :: rest).length - L = (rest.length - L) + 1 := by
        simp only [List.length_cons] at hlen ⊢
        omega
      rw [h1]
      rfl
    · rw [if_neg (by tauto)]
      have h0 : (op :: rest).length - L = 0 := by
        simp only [List.length_cons] at hlen ⊢
        omega
      rw [h0, List.drop_zero]

/-- Mutators never touch the history limit, the suppression flag or the
read-only flag. -/
theorem applyTeCall_frame (m : Model) (s : TeState) (c : TeCall) :
    (applyTeCall m s c).2.history_limit = s.history_limit
    ∧ (applyTeCall m s c).2.suppress_history = s.suppress_history
    ∧ (applyTeCall m s c).2.readonly = s.readonly := by
  cases c with
  | setTok pos seq_id tok =>
    simp only [applyTeCall]
    unfold te_set_token
    split
    · exact ⟨rfl, rfl, rfl⟩
    · split
      · exact ⟨rfl, rfl, rfl⟩
      · exact ⟨te_record_edit_history_limit _ _ _ _ _,
          te_record_edit_suppress _ _ _ _ _, te_record_edit_readonly _ _ _ _ _⟩
  | insert pos seq_id ts =>
    simp only [applyTeCall]
    unfold te_insert_tokens
    split
    · exact ⟨rfl, rfl, rfl⟩
    · split
      · exact ⟨rfl, rfl, rfl⟩
      · split
        · exact ⟨rfl, rfl, rfl⟩
        · exact ⟨te_record_edit_history_limit _ _ _ _ _,
            te_record_edit_suppress _ _ _ _ _, te_record_edit_readonly _ _ _ _ _⟩
  | delete r =>
    simp only [applyTeCall]
    unfold te_delete_tokens
    split
    · exact ⟨rfl, rfl, rfl⟩
    · dsimp only
      split <;> split <;>
        first
          | exact ⟨rfl, rfl, rfl⟩
          | exact ⟨te_record_edit_history_limit _ _ _ _ _,
              te_record_edit_suppress _ _ _ _ _, te_record_edit_readonly _ _ _ _ _⟩
  | replace r ts =>
    simp only [applyTeCall]
    unfold te_replace_tokens
    split
    · exact ⟨rfl, rfl, rfl⟩
    · dsimp only
      split <;> split <;> split <;>
        first
          | exact ⟨te_record_edit_history_limit _ _ _ _ _,
              te_record_edit_suppress _ _ _ _ _, te_record_edit_readonly _ _ _ _ _⟩
          | exact ⟨rfl, rfl, rfl⟩
  | clear seq_id =>
    simp only [applyTeCall]
    unfold te_clear
    split
    · exact ⟨rfl, rfl, rfl⟩
    · dsimp only
      split
      · exact ⟨te_record_edit_history_limit _ _ _ _ _,
          te_record_edit_suppress _ _ _ _ _, te_record_edit_readonly _ _ _ _ _⟩
      · exact ⟨rfl, rfl, rfl⟩

/-- Characterization of each mutator's effect on history and redo
bookkeeping: exactly when the call records (recording enabled and the
op non-trivial), the op is appended (then trimmed) and the redo stack
is emptied; otherwise both are untouched. -/
theorem applyTeCall_history_redo (m : Model) (s : TeState) (c : TeCall) :
    (applyTeCall m s c).2.history
      = (if !s.suppress_history && teRecords s c then
          trimHistory s.history_limit (s.history ++ [teRecOp s c])
        else s.history)
    ∧ (applyTeCall m s c).2.redo_stack
      = (if !s.suppress_history && teRecords s c then [] else s.redo_stack) := by
  cases c with
  | setTok pos seq_id tok =>
    by_cases hr : s.readonly
    · have hrec : teRecords s (TeCall.setTok pos seq_id tok) = false := by
        simp [teRecords, hr]
      constructor <;> simp [applyTeCall, te_set_token, hr, hrec]
    · by_cases hb : pos < 0 ∨ (s.tokens.length : Int) ≤ pos
      · have hrec : teRecords s (TeCall.setTok pos seq_id tok) = false := by
          simp [teRecords, hr]
          omega
        constructor <;> simp [applyTeCall, te_set_token, hr, hb, hrec]
      · have hrec : teRecords s (TeCall.setTok pos seq_id tok) = true := by
          simp [teRecords, hr]
          omega
        by_cases hsup : s.suppress_history <;>
          constructor <;>
            simp [applyTeCall, te_set_token, te_record_edit, teRecOp, hr, hb,
              hrec, hsup]
  | insert pos seq_id ts =>
    by_cases hr : s.readonly
    · have hrec : teRecords s (TeCall.insert pos seq_id ts) = false := by
        simp [teRecords, hr]
      constructor <;> simp [applyTeCall, te_insert_tokens, hr, hrec]
    · by_cases hb : pos < 0 ∨ (s.tokens.length : Int) < pos
      · have hrec : teRecords s (TeCall.insert pos seq_id ts) = false := by
          simp [teRecords, hr]
          omega
        constructor <;> simp [applyTeCall, te_insert_tokens, hr, hb, hrec]
      · by_cases hts : ts = []
        · subst hts
          have hrec : teRecords s (TeCall.insert pos seq_id []) = false := by
            simp [teRecords, hr]
          constructor <;> simp [applyTeCall, te_insert_tokens, hr, hb, hrec]
        · have hrec : teRecords s (TeCall.insert pos seq_id ts) = true := by
            simp [teRecords, hr, hts]
            omega
          by_cases hsup : s.suppress_history <;>
            constructor <;>
              simp [applyTeCall, te_insert_tokens, te_record_edit, teRecOp,
                hr, hb, hts, hrec, hsup]
  | delete r =>
    by_cases hr : s.readonly
    · have hrec : teRecords s (TeCall.delete r) = false := by
        simp [teRecords, hr]
      constructor <;> simp [applyTeCall, te_delete_tokens, hr, hrec]
    · have hro : s.readonly = false := by simpa using hr
      by_cases hcl : r.stop < 0 ∨ (s.tokens.length : Int) < r.stop
      · by_cases hge : (s.tokens.length : Int) ≤ max r.start 0
        · have hrec : teRecords s (TeCall.delete r) = false := by
            simp only [teRecords, hro, Bool.not_false, Bool.true_and,
              decide_eq_false_iff_not, if_pos hcl]
            omega
          constructor <;>
            simp [applyTeCall, te_delete_tokens, hr, hcl, hge, hrec]
        · have hrec : teRecords s (TeCall.delete r) = true := by
            simp only [teRecords, hro, Bool.not_false, Bool.true_and,
              decide_eq_true_eq, if_pos hcl]
            omega
          by_cases hsup : s.suppress_history <;>
            constructor <;>
              simp [applyTeCall, te_delete_tokens, te_record_edit, teRecOp,
                hr, hcl, hge, hrec, hsup]
      · by_cases hge : r.stop ≤ max r.start 0
        · have hrec : teRecords s (TeCall.delete r) = false := by
            simp only [teRecords, hro, Bool.not_false, Bool.true_and,
              decide_eq_false_iff_not, if_neg hcl]
            omega
          constructor <;>
            simp [applyTeCall, te_delete_tokens, hr, hcl, hge, hrec]
        · have hrec : teRecords s (TeCall.delete r) = true := by
            simp only [teRecords, hro, Bool.not_false, Bool.true_and,
              decide_eq_true_eq, if_neg hcl]
            omega
          by_cases hsup : s.suppress_history <;>
            constructor <;>
              simp [applyTeCall, te_delete_tokens, te_record_edit, teRecOp,
                hr, hcl, hge, hrec, hsup]
  | replace r ts =>
    by_cases hr : s.readonly
    · have hrec : teRecords s (TeCall.replace r ts) = false := by
        simp [teRecords, hr]
      constructor <;> simp [applyTeCall, te_replace_tokens, hr, hrec]
    · have hro : s.readonly = false := by simpa using hr
      by_cases hcl : r.stop < 0 ∨ (s.tokens.length : Int) < r.stop
      · by_cases hlt : max r.start 0 < (s.tokens.length : Int)
        · have hrec : teRecords s (TeCall.replace r ts) = true := by
            simp only [teRecords, hro, Bool.not_false, Bool.true_and,
              decide_eq_true_eq, if_pos hcl]
            omega
          have hoc : 0 < ((s.tokens.length : Int) - max r.start 0).toNat := by
            omega
          by_cases hsup : s.suppress_history <;>
            constructor <;>
              simp [applyTeCall, te_replace_tokens, te_record_edit, teRecOp,
                hr, hcl, hlt, hoc, hrec, hsup]
        · have hrec : teRecords s (TeCall.replace r ts) = false := by
            simp only [teRecords, hro, Bool.not_false, Bool.true_and,
              decide_eq_false_iff_not, if_pos hcl]
            omega
          constructor <;>
            simp [applyTeCall, te_replace_tokens, hr, hcl, hlt, hrec]
      · by_cases hlt : max r.start 0 < r.stop
        · have hrec : teRecords s (TeCall.replace r ts) = true := by
            simp only [teRecords, hro, Bool.not_false, Bool.true_and,
              decide_eq_true_eq, if_neg hcl]
            omega
          have hoc : 0 < (r.stop - max r.start 0).toNat := by omega
          by_cases hsup : s.suppress_history <;>
            constructor <;>
              simp [applyTeCall, te_replace_tokens, te_record_edit, teRecOp,
                hr, hcl, hlt, hoc, hrec, hsup]
        · have hrec : teRecords s (TeCall.replace r ts) = false := by
            simp only [teRecords, hro, Bool.not_false, Bool.true_and,
              decide_eq_false_iff_not, if_neg hcl]
            omega
          constructor <;>
            simp [applyTeCall, te_replace_tokens, hr, hcl, hlt, hrec]
  | clear seq_id =>
    by_cases hr : s.readonly
    · have hrec : teRecords s (TeCall.clear seq_id) = false := by
        simp [teRecords, hr]
      constructor <;> simp [applyTeCall, te_clear, hr, hrec]
    · by_cases hn : 0 < s.tokens.length
      · have hrec : teRecords s (TeCall.clear seq_id) = true := by
          simp [teRecords, hr, hn]
        by_cases hsup : s.suppress_history <;>
          constructor <;>
            simp [applyTeCall, te_clear, te_record_edit, teRecOp,
              hr, hn, hrec, hsup]
      · have hrec : teRecords s (TeCall.clear seq_id) = false := by
          simp [teRecords, hr, hn]
        constructor <;> simp [applyTeCall, te_clear, hr, hn, hrec]

/-- A call that records returns TE_OK. -/
theorem teRecords_ok (m : Model) (s : TeState) (c : TeCall)
    (h : teRecords s c = true) : (applyTeCall m s c).1 = .OK := by
  cases c with
  | setTok pos seq_id tok =>
    simp [teRecords] at h
    have hb : ¬ (pos < 0 ∨ (s.tokens.length : Int) ≤ pos) := by omega
    simp [applyTeCall, te_set_token, h.1, hb]
  | insert pos seq_id ts =>
    simp [teRecords] at h
    have hb : ¬ (pos < 0 ∨ (s.tokens.length : Int) < pos) := by omega
    simp [applyTeCall, te_insert_tokens, h.1, hb, h.2]
  | delete r =>
    simp only [teRecords, Bool.and_eq_true, Bool.not_eq_true',
      decide_eq_true_eq] at h
    simp [applyTeCall, te_delete_tokens, h.1, not_le.mpr h.2]
  | replace r ts =>
    simp only [teRecords, Bool.and_eq_true, Bool.not_eq_true',
      decide_eq_true_eq] at h
    simp [applyTeCall, te_replace_tokens, h.1]
  | clear seq_id =>
    simp [teRecords] at h
    simp [applyTeCall, te_clear, h.1]

/-- A mutator replayed with recording suppressed leaves history and
redo untouched (the te_record_edit call inside returns early). -/
theorem applyTeCall_suppressed (m : Model) (s : TeState)
    (h : s.suppress_history = true) (c : TeCall) :
    (applyTeCall m s c).2.history = s.history
    ∧ (applyTeCall m s c).2.redo_stack = s.redo_stack := by
  have hfr := applyTeCall_history_redo m s c
  rw [hfr.1, hfr.2, h]
  exact ⟨rfl, rfl⟩

/-- Counterexample for claim C3: a reachable editor with recording
enabled, one entry on the redo stack and an empty history.  The
empty-payload insert returns TE_OK, yet zero EditOps are appended (the
history stays empty, not one longer) and the redo stack is NOT
emptied. -/
theorem c3_counterexample :
    (te_undo mZero
        (te_insert_tokens mZero te_init_state 0 0 [5]).2).2.suppress_history
      = false
    ∧ (te_undo mZero
        (te_insert_tokens mZero te_init_state 0 0 [5]).2).2.redo_stack.length = 1
    ∧ (te_insert_tokens mZero
        (te_undo mZero (te_insert_tokens mZero te_init_state 0 0 [5]).2).2
        0 0 []).1 = TeError.OK
    ∧ (te_insert_tokens mZero
        (te_undo mZero (te_insert_tokens mZero te_init_state 0 0 [5]).2).2
        0 0 []).2.history.length = 0
    ∧ (te_insert_tokens mZero
        (te_undo mZero (te_insert_tokens mZero te_init_state 0 0 [5]).2).2
        0 0 []).2.redo_stack.length = 1 := by
  decide

/-- Claim C3 (amended): with recording enabled, a mutator that records
(set_token on a valid position; insert with nonempty payload; delete or
replace with a nonempty clamped range; clear on a nonempty buffer)
returns TE_OK, appends exactly one EditOp to the history (which is then
trimmed to the limit) and empties the redo stack; a mutator returning
TE_OK without recording (the no-op cases) leaves history and redo
untouched.  te_undo on a nonempty history moves exactly its last entry
onto the redo stack; te_redo moves the top redo entry back onto the
history tail. -/
theorem c3_amended_stack_accounting :
    (∀ (m : Model) (s : TeState) (c : TeCall),
      s.suppress_history = false →
      (teRecords s c = true →
        (applyTeCall m s c).1 = .OK
        ∧ (applyTeCall m s c).2.history
          = trimHistory s.history_limit (s.history ++ [teRecOp s c])
        ∧ (applyTeCall m s c).2.redo_stack = [])
      ∧ (teRecords s c = false → (applyTeCall m s c).1 = .OK →
        (applyTeCall m s c).2.history = s.history
        ∧ (applyTeCall m s c).2.redo_stack = s.redo_stack))
    ∧ (∀ (m : Model) (s : TeState) (hist : List EditOp) (op : EditOp),
      s.history = hist ++ [op] →
      (te_undo m s).1 = .OK
      ∧ (te_undo m s).2.history = hist
      ∧ (te_undo m s).2.redo_stack = op :: s.redo_stack)
    ∧ (∀ (m : Model) (s : TeState) (op : EditOp) (rest : List EditOp),
      s.redo_stack = op :: rest →
      (te_redo m s).1 = .OK
      ∧ (te_redo m s).2.history = s.history ++ [op]
      ∧ (te_redo m s).2.redo_stack = rest) := by
  refine ⟨?_, ?_, ?_⟩
  · intro m s c hsup
    have hfr := applyTeCall_history_redo m s c
    constructor
    · intro hrec
      refine ⟨teRecords_ok m s c hrec, ?_, ?_⟩
      · rw [hfr.1, hsup, hrec]
        rfl
      · rw [hfr.2, hsup, hrec]
        rfl
    · intro hrec _
      constructor
      · rw [hfr.1, hsup, hrec]
        rfl
      · rw [hfr.2, hsup, hrec]
        rfl
  · intro m s hist op hh
    unfold te_undo
    rw [hh, List.getLast?_concat]
    rcases op with ⟨ty, src, dst, ts⟩
    have hhd : (hist ++ [(⟨ty, src, dst, ts⟩ : EditOp)]).dropLast = hist :=
      List.dropLast_concat
    cases ty with
    | INSERT =>
      refine ⟨rfl, ?_, ?_⟩
      · have hx := (applyTeCall_suppressed m
          { s with
            history := (hist ++ [(⟨.INSERT, src, dst, ts⟩ : EditOp)]).dropLast
            suppress_history := true }
          rfl (.delete src)).1
        exact hx.trans (by rw [hhd])
      · have hx := (applyTeCall_suppressed m
          { s with
            history := (hist ++ [(⟨.INSERT, src, dst, ts⟩ : EditOp)]).dropLast
            suppress_history := true }
          rfl (.delete src)).2
        exact congrArg (List.cons _) hx
    | DELETE =>
      refine ⟨rfl, ?_, ?_⟩
      · have hx := (applyTeCall_suppressed m
          { s with
            history := (hist ++ [(⟨.DELETE, src, dst, ts⟩ : EditOp)]).dropLast
            suppress_history := true }
          rfl (.insert src.start src.seq_id ts)).1
        exact hx.trans (by rw [hhd])
      · have hx := (applyTeCall_suppressed m
          { s with
            history := (hist ++ [(⟨.DELETE, src, dst, ts⟩ : EditOp)]).dropLast
            suppress_history := true }
          rfl (.insert src.start src.seq_id ts)).2
        exact congrArg (List.cons _) hx
    | REPLACE =>
      refine ⟨rfl, ?_, ?_⟩
      · have hx := (applyTeCall_suppressed m
          { s with
            history := (hist ++ [(⟨.REPLACE, src, dst, ts⟩ : EditOp)]).dropLast
            suppress_history := true }
          rfl (.replace dst ts)).1
        exact hx.trans (by rw [hhd])
      · have hx := (applyTeCall_suppressed m
          { s with
            history := (hist ++ [(⟨.REPLACE, src, dst, ts⟩ : EditOp)]).dropLast
            suppress_history := true }
          rfl (.replace dst ts)).2
        exact congrArg (List.cons _) hx
    | MOVE => exact ⟨rfl, by rw [hhd], rfl⟩
    | COPY => exact ⟨rfl, by rw [hhd], rfl⟩
    | SWAP => exact ⟨rfl, by rw [hhd], rfl⟩
  · intro m s op rest hr
    unfold te_redo
    rw [hr]
    rcases op with ⟨ty, src, dst, ts⟩
    cases ty with
    | INSERT =>
      refine ⟨rfl, ?_, ?_⟩
      · exact congrArg (· ++ [(⟨.INSERT, src, dst, ts⟩ : EditOp)])
          ((applyTeCall_suppressed m
            { s with redo_stack := rest, suppress_history := true } rfl
            (.insert src.start src.seq_id ts)).1)
      · exact (applyTeCall_suppressed m
          { s with redo_stack := rest, suppress_history := true } rfl
          (.insert src.start src.seq_id ts)).2
    | DELETE =>
      refine ⟨rfl, ?_, ?_⟩
      · exact congrArg (· ++ [(⟨.DELETE, src, dst, ts⟩ : EditOp)])
          ((applyTeCall_suppressed m
            { s with redo_stack := rest, suppress_history := true } rfl
            (.delete src)).1)
      · exact (applyTeCall_suppressed m
          { s with redo_stack := rest, suppress_history := true } rfl
          (.delete src)).2
    | REPLACE =>
      refine ⟨rfl, ?_, ?_⟩
      · exact congrArg (· ++ [(⟨.REPLACE, src, dst, ts⟩ : EditOp)])
          ((applyTeCall_suppressed m
            { s with redo_stack := rest, suppress_history := true } rfl
            (.replace src ts)).1)
      · exact (applyTeCall_suppressed m
          { s with redo_stack := rest, suppress_history := true } rfl
          (.replace src ts)).2
    | MOVE => exact ⟨rfl, rfl, rfl⟩
    | COPY => exact ⟨rfl, rfl, rfl⟩
    | SWAP => exact ⟨rfl, rfl, rfl⟩

/-- Witness for C3: a recording insert on a fresh editor, and an undo
on the resulting one-entry history. -/
theorem c3_witness :
    (applyTeCall mZero te_init_state (TeCall.insert 0 0 [5])).1 = .OK
    ∧ (applyTeCall mZero te_init_state (TeCall.insert 0 0 [5])).2.history
      = trimHistory te_init_state.history_limit
          (te_init_state.history ++ [teRecOp te_init_state (TeCall.insert 0 0 [5])])
    ∧ (applyTeCall mZero te_init_state (TeCall.insert 0 0 [5])).2.redo_stack = []
    ∧ (te_undo mZero (te_insert_tokens mZero te_init_state 0 0 [5]).2).2.history
      = []
    ∧ (te_undo mZero (te_insert_tokens mZero te_init_state 0 0 [5]).2).2.redo_stack
      = (⟨.INSERT, ⟨0, 1, 0⟩, ⟨0, 1, 0⟩, [5]⟩ : EditOp)
        :: (te_insert_tokens mZero te_init_state 0 0 [5]).2.redo_stack := by
  obtain ⟨h1, h2, h3⟩ := (c3_amended_stack_accounting.1 mZero te_init_state
    (TeCall.insert 0 0 [5]) rfl).1 (by decide)
  obtain ⟨h4, h5, h6⟩ := c3_amended_stack_accounting.2.1 mZero
    (te_insert_tokens mZero te_init_state 0 0 [5]).2 []
    ⟨.INSERT, ⟨0, 1, 0⟩, ⟨0, 1, 0⟩, [5]⟩ (by decide)
  exact ⟨h1, h2, h3, h5, h6⟩

/-!
Helper lemmas for the history-limit claim: running a call sequence
folds te_record_edit over the recorded ops.
-/

theorem applyTeCalls_cons (m : Model) (s : TeState) (c : TeCall)
    (cs : List TeCall) :
    applyTeCalls m s (c :: cs) = applyTeCalls m (applyTeCall m s c).2 cs := rfl

theorem recordedOps_cons_pos (m : Model) (s : TeState) (c : TeCall)
    (cs : List TeCall) (h : teRecords s c = true) :
    recordedOps m s (c :: cs)
      = teRecOp s c :: recordedOps m (applyTeCall m s c).2 cs := by
  simp [recordedOps, h]

theorem recordedOps_cons_neg (m : Model) (s : TeState) (c : TeCall)
    (cs : List TeCall) (h : teRecords s c = false) :
    recordedOps m s (c :: cs) = recordedOps m (applyTeCall m s c).2 cs := by
  simp [recordedOps, h]

theorem drop_chain {α : Type} (A B : List α) (d e f : Nat)
    (hd : d ≤ A.length) (hf : f = d + e) :
    (A.drop d ++ B).drop e = (A ++ B).drop f := by
  subst hf
  rw [← List.drop_append_of_le_length hd, List.drop_drop]

/-- Running any sequence of mutator calls with recording enabled and a
positive limit leaves the history equal to the tail of
(initial history ++ recorded ops), trimmed to the limit. -/
theorem applyTeCalls_history_drop (m : Model) :
    ∀ (cs : List TeCall) (s : TeState), s.suppress_history = false →
      0 < s.history_limit →
      (applyTeCalls m s cs).history
        = if recordedOps m s cs = [] then s.history
          else (s.history ++ recordedOps m s cs).drop
            ((s.history.length + (recordedOps m s cs).length) - s.history_limit) := by
  intro cs
  induction cs with
  | nil =>
    intro s hsup hL
    simp [applyTeCalls, recordedOps]
  | cons c rest ih =>
    intro s hsup hL
    have hfr := applyTeCall_frame m s c
    have hhr := applyTeCall_history_redo m s c
    have hsup' : (applyTeCall m s c).2.suppress_history = false := by
      rw [hfr.2.1, hsup]
    have hL' : 0 < (applyTeCall m s c).2.history_limit := by
      rw [hfr.1]
      exact hL
    by_cases hrec : teRecords s c = true
    · have hhist : (applyTeCall m s c).2.history
          = (s.history ++ [teRecOp s c]).drop
            ((s.history.length + 1) - s.history_limit) := by
        rw [hhr.1, hsup, hrec]
        show trimHistory s.history_limit (s.history ++ [teRecOp s c]) = _
        rw [trimHistory_eq_drop s.history_limit hL]
        congr 1
        simp
      rw [applyTeCalls_cons, ih (applyTeCall m s c).2 hsup' hL',
        recordedOps_cons_pos m s c rest hrec, hfr.1]
      by_cases hR : recordedOps m (applyTeCall m s c).2 rest = []
      · rw [if_pos hR, hR, if_neg (List.cons_ne_nil _ _), hhist]
        congr 1
      · rw [if_neg hR, if_neg (List.cons_ne_nil _ _), hhist]
        rw [drop_chain (s.history ++ [teRecOp s c])
          (recordedOps m (applyTeCall m s c).2 rest)
          ((s.history.length + 1) - s.history_limit) _ _ (by simp) rfl]
        rw [List.append_assoc, List.singleton_append]
        congr 1
        simp [List.length_drop]
        omega
    · have hrecF : teRecords s c = false := by simpa using hrec
      have hhist : (applyTeCall m s c).2.history = s.history := by
        rw [hhr.1, hsup, hrecF]
        rfl
      rw [applyTeCalls_cons, ih (applyTeCall m s c).2 hsup' hL',
        recordedOps_cons_neg m s c rest hrecF, hhist, hfr.1]

/-- Claim C9 (confirmed).  With a positive history limit L and
recording enabled, after any sequence of mutator calls of which more
than L record, the history holds exactly the most recent L recorded
ops, in order. -/
theorem c9_history_limit (m : Model) (s : TeState) (cs : List TeCall)
    (L : Nat) (hsup : s.suppress_history = false)
    (hlim : s.history_limit = L) (hL : 0 < L)
    (hM : L < (recordedOps m s cs).length) :
    (applyTeCalls m s cs).history
      = (recordedOps m s cs).drop ((recordedOps m s cs).length - L)
    ∧ (applyTeCalls m s cs).history.length = L := by
  have hne : recordedOps m s cs ≠ [] := by
    intro h
    rw [h] at hM
    simp at hM
  have h1 := applyTeCalls_history_drop m cs s hsup (by rw [hlim]; exact hL)
  rw [if_neg hne, hlim] at h1
  have hidx : (s.history.length + (recordedOps m s cs).length) - L
      = s.history.length + ((recordedOps m s cs).length - L) := by omega
  rw [hidx, ← List.drop_drop, List.drop_left] at h1
  refine ⟨h1, ?_⟩
  rw [h1, List.length_drop]
  omega

/-- Witness for C9: limit 2, three recording inserts — the history
keeps the most recent two recorded ops. -/
theorem c9_witness :
    (applyTeCalls mZero { te_init_state with history_limit := 2 }
        [.insert 0 0 [1], .insert 0 0 [2], .insert 0 0 [3]]).history
      = (recordedOps mZero { te_init_state with history_limit := 2 }
          [.insert 0 0 [1], .insert 0 0 [2], .insert 0 0 [3]]).drop 1
    ∧ (applyTeCalls mZero { te_init_state with history_limit := 2 }
        [.insert 0 0 [1], .insert 0 0 [2], .insert 0 0 [3]]).history.length
      = 2 := by
  have h := c9_history_limit mZero { te_init_state with history_limit := 2 }
    [.insert 0 0 [1], .insert 0 0 [2], .insert 0 0 [3]] 2 rfl rfl
    (by decide) (by decide)
  have hlen : (recordedOps mZero { te_init_state with history_limit := 2 }
      [.insert 0 0 [1], .insert 0 0 [2], .insert 0 0 [3]]).length = 3 := by
    decide
  refine ⟨?_, h.2⟩
  rw [h.1, hlen]

